import Mathlib

/-!
Shallow embedding of the DFA lexer in src/lexer.py.

The Python class Lexer carries mutable attributes source_code, tokens,
current_token, line_number, index and state; here they form the structure
Lexer, and every method becomes a pure function from the old record to the
new one.  Python strings are modelled as List Char (the source) and String
(token lexemes and kinds); the character predicates isdigit, isalpha and
isalnum are modelled by the ASCII predicates Char.isDigit, Char.isAlpha and
Char.isAlphanum, and str.lstrip by dropping Char.isWhitespace characters,
so the development describes the behaviour of the program on ASCII input.
The ValueError raised in _handle_start_state and caught in tokenize is
modelled by Except: the driver stops at the first error, returning the
state reached so far together with the error payload (character, line).
Brace characters inside string literals are written with the escapes
\x7b and \x7d.
-/

inductive DfaState where
  | START
  | IN_NUMBER
  | IN_IDENTIFIER
  | IN_OPERATOR
  | IN_COMMENT
deriving DecidableEq, Repr

/-- A token as the Python tuple (token_type, token_value, line_number). -/
abbrev Token := String × String × Nat

def token_line (t : Token) : Nat := t.2.2

structure Lexer where
  source_code : List Char
  tokens : List Token
  current_token : String
  line_number : Nat
  index : Nat
  state : DfaState
deriving DecidableEq, Repr

/-- The characters of the Python string literal checked by
the operator branch of _handle_start_state. -/
def operator_chars : List Char := ['+', '-', '*', '/', '<', '>', '=']

/-- The characters of the Python string literal checked by
the single-character-token branch of _handle_start_state
(the braces are written with escapes). -/
def single_chars : List Char := ['\x7b', '\x7d', '(', ')', '=']

/-- The token_map dictionary of _handle_start_state. -/
def token_map (c : Char) : String :=
  if c = '\x7b' then "LBRACE"
  else if c = '\x7d' then "RBRACE"
  else if c = '(' then "LPAREN"
  else if c = ')' then "RPAREN"
  else "ASSIGN"

/-- Lexer._append_token_then_transists_start: append the token tagged with
the current line number; the returned pair ("START", "") of the Python
method is folded into the state and current_token fields. -/
def append_token_then_transists_start (s : Lexer) (token_type token_value : String) : Lexer :=
  { s with tokens := s.tokens ++ [(token_type, token_value, s.line_number)],
           state := DfaState.START, current_token := "" }

/-- Lexer._handle_start_state.  The final else raises ValueError, modelled
as the error payload (character, line). -/
def handle_start_state (s : Lexer) (next_char : Char) : Except (Char × Nat) Lexer :=
  if next_char.isDigit then
    Except.ok { s with state := DfaState.IN_NUMBER,
                       current_token := s.current_token.push next_char }
  else if next_char.isAlpha ∨ next_char = '_' then
    Except.ok { s with state := DfaState.IN_IDENTIFIER,
                       current_token := s.current_token.push next_char }
  else if operator_chars.contains next_char then
    Except.ok { s with state := DfaState.IN_OPERATOR,
                       current_token := s.current_token.push next_char }
  else if next_char = ' ' ∨ next_char = '\t' then
    Except.ok { s with state := DfaState.START, current_token := "" }
  else if next_char = '\n' then
    Except.ok { s with line_number := s.line_number + 1,
                       state := DfaState.START, current_token := "" }
  else if single_chars.contains next_char then
    Except.ok (append_token_then_transists_start s (token_map next_char)
      (String.singleton next_char))
  else
    Except.error (next_char, s.line_number)

/-- Lexer._handle_in_number_state. -/
def handle_in_number_state (s : Lexer) (next_char : Char) : Lexer :=
  if next_char.isDigit then
    { s with state := DfaState.IN_NUMBER,
             current_token := s.current_token.push next_char }
  else
    let s1 := append_token_then_transists_start s "NUMBER" s.current_token
    if next_char = '\n' then { s1 with line_number := s1.line_number + 1 } else s1

/-- The keyword set of _handle_in_identifier_state. -/
def keywords : List String := ["if", "else", "while"]

/-- str.upper() on a buffer, as an uppercase map over its characters. -/
def py_upper (s : String) : String := String.mk (s.data.map Char.toUpper)

/-- Lexer._handle_in_identifier_state; str.upper() becomes a map of
Char.toUpper over the buffer. -/
def handle_in_identifier_state (s : Lexer) (next_char : Char) : Lexer :=
  let s1 :=
    if next_char.isAlphanum ∨ next_char = '_' then
      { s with state := DfaState.IN_IDENTIFIER,
               current_token := s.current_token.push next_char }
    else if keywords.contains s.current_token then
      append_token_then_transists_start s (py_upper s.current_token) s.current_token
    else
      append_token_then_transists_start s "IDENTIFIER" s.current_token
  if next_char = '\n' then { s1 with line_number := s1.line_number + 1 } else s1

/-- Lexer._handle_in_operator_state.  The compound branch both extends the
buffer with the equals sign and advances the index past it. -/
def handle_in_operator_state (s : Lexer) (next_char : Char) : Lexer :=
  let s1 :=
    if s.current_token = "/" ∧ next_char = '/' then
      { s with state := DfaState.IN_COMMENT, current_token := "" }
    else if s.current_token = "=" ∧ next_char ≠ '=' then
      append_token_then_transists_start s "ASSIGN" s.current_token
    else
      let s2 :=
        if next_char = '=' then
          { s with current_token := s.current_token.push '=', index := s.index + 1 }
        else s
      append_token_then_transists_start s2 "OPERATOR" s2.current_token
  if next_char = '\n' then { s1 with line_number := s1.line_number + 1 } else s1

/-- Length of the prefix of a character list before its first newline: the
number of iterations of the while loop of _handle_in_comment_state. -/
def skip_len : List Char → Nat
  | [] => 0
  | c :: rest => if c = '\n' then 0 else skip_len rest + 1

/-- Lexer._handle_in_comment_state: an optional line bump for a newline at
the current position, the while loop advancing the index to the next
newline or the end, then one unconditional line bump. -/
def handle_in_comment_state (s : Lexer) (next_char : Char) : Lexer :=
  let s1 := if next_char = '\n' then { s with line_number := s.line_number + 1 } else s
  { s1 with index := s1.index + skip_len (s1.source_code.drop s1.index),
            line_number := s1.line_number + 1,
            state := DfaState.START, current_token := "" }

/-- One dispatch of the body of the while loop of Lexer.tokenize: the
branch on self.state.  Only the START handler can fail. -/
def step (s : Lexer) (next_char : Char) : Except (Char × Nat) Lexer :=
  match s.state with
  | DfaState.START => handle_start_state s next_char
  | DfaState.IN_NUMBER => Except.ok (handle_in_number_state s next_char)
  | DfaState.IN_IDENTIFIER => Except.ok (handle_in_identifier_state s next_char)
  | DfaState.IN_OPERATOR => Except.ok (handle_in_operator_state s next_char)
  | DfaState.IN_COMMENT => Except.ok (handle_in_comment_state s next_char)

/-- The while loop of Lexer.tokenize, with explicit fuel.  Each iteration
reads the character at the current index, dispatches on the state, then
advances the index by one; a raised error stops the loop at once, leaving
the state (hence the collected tokens) as it was when the handler raised.
A fuel equal to the source length always suffices (proved below). -/
def tokenize_loop : Nat → Lexer → Lexer × Option (Char × Nat)
  | 0, s => (s, none)
  | fuel + 1, s =>
    match s.source_code[s.index]? with
    | none => (s, none)
    | some c =>
      match step s c with
      | Except.error e => (s, some e)
      | Except.ok s1 => tokenize_loop fuel { s1 with index := s1.index + 1 }

/-- Lexer.tokenize: reset the state to START, then run the loop.  The
index, line number, buffer and token list persist from the given record,
as the Python attributes do across calls. -/
def tokenize (s : Lexer) : Lexer × Option (Char × Nat) :=
  tokenize_loop s.source_code.length { s with state := DfaState.START }

/-- Lexer.__init__: strip leading whitespace, start at line 1, index 0. -/
def Lexer.init (source_code : String) : Lexer :=
  { source_code := source_code.toList.dropWhile Char.isWhitespace,
    tokens := [], current_token := "", line_number := 1, index := 0,
    state := DfaState.START }

/-- Construct the lexer over a source string and run tokenize once. -/
def tokenize_source (source_code : String) : Lexer × Option (Char × Nat) :=
  tokenize (Lexer.init source_code)

/-- C3: on the spec input of Scenario A the code emits only the first four
claimed tokens and succeeds; the final NUMBER token for "3" is never
emitted, because tokenize has no end-of-input flush.  The claimed sequence
ends with ("NUMBER", "3", 1), so the claim fails on this input. -/
theorem scenario_a_missing_final_number :
    (tokenize_source "x = 5 + 3").1.tokens =
      [("IDENTIFIER", "x", 1), ("ASSIGN", "=", 1), ("NUMBER", "5", 1),
       ("OPERATOR", "+", 1)] ∧
    (tokenize_source "x = 5 + 3").2 = none := by
  constructor <;> rfl

/-- C1: the terminating character of a pending token is consumed, not
re-dispatched.  On "1+2 " the plus sign ends the first number, but the
main loop advances the index past it after the NUMBER token is emitted, so
the plus sign never reaches the Start rules and no OPERATOR token is ever
produced for it; the scan still succeeds. -/
theorem number_terminator_not_redispatched :
    (tokenize_source "1+2 ").1.tokens = [("NUMBER", "1", 1), ("NUMBER", "2", 1)] ∧
    (tokenize_source "1+2 ").2 = none := by
  constructor <;> rfl

/-- C2: there is no end-of-input flush in Lexer.tokenize.  On "abc" the
scan ends with the buffer "abc" in the identifier state, yet the loop
simply stops and no token at all is emitted. -/
theorem no_end_of_input_flush :
    (tokenize_source "abc").1.tokens = [] ∧
    (tokenize_source "abc").2 = none ∧
    (tokenize_source "abc").1.current_token = "abc" ∧
    (tokenize_source "abc").1.state = DfaState.IN_IDENTIFIER := by
  refine ⟨rfl, rfl, rfl, rfl⟩

/-- C7: Scenario B holds exactly as claimed: the comment produces no
token, and each of the five tokens carries line 2. -/
theorem scenario_b_tokens :
    (tokenize_source "// c\nif x > 5 \x7b").1.tokens =
      [("IF", "if", 2), ("IDENTIFIER", "x", 2), ("OPERATOR", ">", 2),
       ("NUMBER", "5", 2), ("LBRACE", "\x7b", 2)] ∧
    (tokenize_source "// c\nif x > 5 \x7b").2 = none := by
  constructor <;> decide

/-- C4 counterexample: a plus sign buffered in the operator state does
combine with a following equals sign into the single two-character
OPERATOR token "+=", refuting the claim that the characters plus, minus
and star never form compound operators. -/
theorem plus_forms_compound_operator :
    (tokenize_source "+=").1.tokens = [("OPERATOR", "+=", 1)] ∧
    (tokenize_source "+=").2 = none := by
  constructor <;> rfl

/-- C6 counterexample: a comment whose newline immediately follows the two
slashes increments the line counter twice, not once: after the comment
"//" on line 1 ends, the following identifier is tagged with line 3
instead of line 2, refuting the exactly-once increment of the claim. -/
theorem empty_comment_double_line_increment :
    (tokenize_source "//\nx ").1.tokens = [("IDENTIFIER", "x", 3)] ∧
    (tokenize_source "//\nx ").2 = none := by
  constructor <;> rfl


/-- Shape of one handler application: the source is untouched, the index
and the line number never decrease, and at most one token is appended,
always tagged with the line number the handler started from. -/
def steps_to (s s1 : Lexer) : Prop :=
  s1.source_code = s.source_code ∧
  s.index ≤ s1.index ∧
  s.line_number ≤ s1.line_number ∧
  (s1.tokens = s.tokens ∨
    ∃ ty v, s1.tokens = s.tokens ++ [(ty, v, s.line_number)])

theorem steps_to_append (s : Lexer) (ty v : String) :
    steps_to s (append_token_then_transists_start s ty v) :=
  ⟨rfl, Nat.le_refl _, Nat.le_refl _, Or.inr ⟨ty, v, rfl⟩⟩

theorem steps_to_bump (s s1 : Lexer) (h : steps_to s s1) :
    steps_to s { s1 with line_number := s1.line_number + 1 } :=
  ⟨h.1, h.2.1, Nat.le_succ_of_le h.2.2.1, h.2.2.2⟩

theorem steps_to_if_bump (s s1 : Lexer) (c d : Char) (h : steps_to s s1) :
    steps_to s (if c = d then { s1 with line_number := s1.line_number + 1 } else s1) := by
  split
  · exact steps_to_bump s s1 h
  · exact h

theorem steps_to_handle_in_number (s : Lexer) (c : Char) :
    steps_to s (handle_in_number_state s c) := by
  unfold handle_in_number_state
  split
  · exact ⟨rfl, Nat.le_refl _, Nat.le_refl _, Or.inl rfl⟩
  · exact steps_to_if_bump s _ c '\n' (steps_to_append s _ _)

theorem steps_to_handle_in_identifier (s : Lexer) (c : Char) :
    steps_to s (handle_in_identifier_state s c) := by
  unfold handle_in_identifier_state
  refine steps_to_if_bump s _ c '\n' ?_
  split
  · exact ⟨rfl, Nat.le_refl _, Nat.le_refl _, Or.inl rfl⟩
  · split
    · exact steps_to_append s _ _
    · exact steps_to_append s _ _

theorem steps_to_handle_in_operator (s : Lexer) (c : Char) :
    steps_to s (handle_in_operator_state s c) := by
  unfold handle_in_operator_state
  refine steps_to_if_bump s _ c '\n' ?_
  split
  · exact ⟨rfl, Nat.le_refl _, Nat.le_refl _, Or.inl rfl⟩
  · split
    · exact steps_to_append s _ _
    · split
      · exact ⟨rfl, Nat.le_succ _, Nat.le_refl _,
          Or.inr ⟨"OPERATOR", s.current_token.push '=', rfl⟩⟩
      · exact steps_to_append s _ _

theorem steps_to_handle_in_comment (s : Lexer) (c : Char) :
    steps_to s (handle_in_comment_state s c) := by
  unfold handle_in_comment_state
  split
  · exact ⟨rfl, Nat.le_add_right _ _, Nat.le_succ_of_le (Nat.le_succ _), Or.inl rfl⟩
  · exact ⟨rfl, Nat.le_add_right _ _, Nat.le_succ _, Or.inl rfl⟩

theorem steps_to_handle_start (s s1 : Lexer) (c : Char)
    (h : handle_start_state s c = Except.ok s1) : steps_to s s1 := by
  unfold handle_start_state at h
  split at h
  · cases h; exact ⟨rfl, Nat.le_refl _, Nat.le_refl _, Or.inl rfl⟩
  · split at h
    · cases h; exact ⟨rfl, Nat.le_refl _, Nat.le_refl _, Or.inl rfl⟩
    · split at h
      · cases h; exact ⟨rfl, Nat.le_refl _, Nat.le_refl _, Or.inl rfl⟩
      · split at h
        · cases h; exact ⟨rfl, Nat.le_refl _, Nat.le_refl _, Or.inl rfl⟩
        · split at h
          · cases h; exact ⟨rfl, Nat.le_refl _, Nat.le_succ _, Or.inl rfl⟩
          · split at h
            · cases h; exact steps_to_append s _ _
            · cases h

theorem step_steps_to (s s1 : Lexer) (c : Char) (h : step s c = Except.ok s1) :
    steps_to s s1 := by
  unfold step at h
  cases hs : s.state <;> rw [hs] at h
  case START => exact steps_to_handle_start s s1 c h
  case IN_NUMBER => cases h; exact steps_to_handle_in_number s c
  case IN_IDENTIFIER => cases h; exact steps_to_handle_in_identifier s c
  case IN_OPERATOR => cases h; exact steps_to_handle_in_operator s c
  case IN_COMMENT => cases h; exact steps_to_handle_in_comment s c

theorem tokenize_loop_succ (fuel : Nat) (s : Lexer) :
    tokenize_loop (fuel + 1) s =
      match s.source_code[s.index]? with
      | none => (s, none)
      | some c =>
        match step s c with
        | Except.error e => (s, some e)
        | Except.ok s1 => tokenize_loop fuel { s1 with index := s1.index + 1 } := rfl


theorem tokenize_loop_done (fuel : Nat) (s : Lexer)
    (h : s.source_code.length ≤ s.index) : tokenize_loop fuel s = (s, none) := by
  cases fuel with
  | zero => rfl
  | succ n =>
    rw [tokenize_loop_succ]
    have hg : s.source_code[s.index]? = none := by
      rw [List.getElem?_eq_none_iff]
      exact h
    rw [hg]

theorem tokenize_loop_complete (fuel : Nat) :
    ∀ s t : Lexer, ∀ r : Option (Char × Nat), tokenize_loop fuel s = (t, r) →
      s.source_code.length ≤ s.index + fuel → r = none →
      t.source_code.length ≤ t.index := by
  induction fuel with
  | zero =>
    intro s t r hloop hb _
    injection hloop with h1 h2
    subst h1
    simpa using hb
  | succ n ih =>
    intro s t r hloop hb hr
    rw [tokenize_loop_succ] at hloop
    split at hloop
    · rename_i hg
      injection hloop with h1 h2
      subst h1
      exact List.getElem?_eq_none_iff.mp hg
    · rename_i c hg
      split at hloop
      · rename_i e hst
        injection hloop with h1 h2
        rw [← h2] at hr
        simp at hr
      · rename_i s1 hst
        have hshape := step_steps_to s s1 c hst
        refine ih _ _ _ hloop ?_ hr
        show s1.source_code.length ≤ s1.index + 1 + n
        rw [hshape.1]
        have := hshape.2.1
        omega

theorem tokenize_loop_error (fuel : Nat) :
    ∀ s t : Lexer, ∀ e : Char × Nat, tokenize_loop fuel s = (t, some e) →
      ∃ c, t.source_code[t.index]? = some c ∧ step t c = Except.error e := by
  induction fuel with
  | zero =>
    intro s t e h
    simp [tokenize_loop] at h
  | succ n ih =>
    intro s t e h
    rw [tokenize_loop_succ] at h
    split at h
    · simp at h
    · rename_i c hg
      split at h
      · rename_i e2 hst
        injection h with h1 h2
        subst h1
        injection h2 with h3
        subst h3
        exact ⟨c, hg, hst⟩
      · rename_i s1 hst
        exact ih _ _ _ h

theorem step_error_start (s : Lexer) (c : Char) (e : Char × Nat)
    (h : step s c = Except.error e) : s.state = DfaState.START := by
  unfold step at h
  cases hs : s.state
  case START => rfl
  all_goals (rw [hs] at h; simp at h)

/-- C9: tokenize terminates within a number of iterations bounded by the
input length.  Every successful dispatch leaves the index no smaller than
it was, so the unconditional increment of the main loop makes the index
strictly increase on every iteration (including through the comment skip
and the extra advance of the compound-operator fold, which only move it
further); consequently a fuel equal to the input length is enough: when
the run ends without an error the whole input has been consumed. -/
theorem tokenize_bounded_termination :
    (∀ (s s1 : Lexer) (c : Char), step s c = Except.ok s1 →
      s1.source_code = s.source_code ∧ s.index < s1.index + 1) ∧
    (∀ src : String, (tokenize_source src).2 = none →
      (tokenize_source src).1.source_code.length ≤ (tokenize_source src).1.index) := by
  constructor
  · intro s s1 c h
    have hshape := step_steps_to s s1 c h
    exact ⟨hshape.1, Nat.lt_succ_of_le hshape.2.1⟩
  · intro src h
    unfold tokenize_source tokenize at h ⊢
    exact tokenize_loop_complete _ _ _ _ rfl (by simp) h

/-- Witness for C9 at concrete inputs: one step from the start state over
the one-character source "1" keeps the source and moves the index forward,
and the full scan of "x " ends with the index at the input length. -/
theorem tokenize_bounded_termination_witness :
    ((Lexer.mk ['1'] [] "1" 1 0 DfaState.IN_NUMBER).source_code =
        (Lexer.mk ['1'] [] "" 1 0 DfaState.START).source_code ∧
      (Lexer.mk ['1'] [] "" 1 0 DfaState.START).index <
        (Lexer.mk ['1'] [] "1" 1 0 DfaState.IN_NUMBER).index + 1) ∧
    (tokenize_source "x ").1.source_code.length ≤ (tokenize_source "x ").1.index :=
  ⟨tokenize_bounded_termination.1 (Lexer.mk ['1'] [] "" 1 0 DfaState.START)
      (Lexer.mk ['1'] [] "1" 1 0 DfaState.IN_NUMBER) '1' (by rfl),
    tokenize_bounded_termination.2 "x " (by decide)⟩

theorem lexer_eta_start (s : Lexer) (h : s.state = DfaState.START) :
    { s with state := DfaState.START } = s := by
  cases s
  simp_all

/-- C10: a second tokenize call on the same record leaves the token
sequence unchanged and reproduces the first outcome.  The index persists,
so after a successful call the loop finds the index at the end of the
input and scans nothing, and after a failing call the loop immediately
re-examines the same offending character at Start, fails with the same
error and appends nothing. -/
theorem tokenize_second_call_no_change (src : String) :
    (tokenize (tokenize_source src).1).1.tokens = (tokenize_source src).1.tokens ∧
    (tokenize (tokenize_source src).1).2 = (tokenize_source src).2 := by
  rcases hfst : tokenize_source src with ⟨t, r⟩
  cases r with
  | none =>
    show (tokenize t).1.tokens = t.tokens ∧ (tokenize t).2 = none
    unfold tokenize_source tokenize at hfst
    have hdone : t.source_code.length ≤ t.index :=
      tokenize_loop_complete _ _ _ _ hfst (by simp) rfl
    have hsecond : tokenize t = ({ t with state := DfaState.START }, none) := by
      unfold tokenize
      exact tokenize_loop_done _ _ hdone
    rw [hsecond]
    exact ⟨rfl, rfl⟩
  | some e =>
    show (tokenize t).1.tokens = t.tokens ∧ (tokenize t).2 = some e
    unfold tokenize_source tokenize at hfst
    obtain ⟨c, hc, hst⟩ := tokenize_loop_error _ _ _ _ hfst
    have hstart : t.state = DfaState.START := step_error_start t c e hst
    have hidx : ¬ t.source_code.length ≤ t.index := by
      intro hl
      rw [List.getElem?_eq_none_iff.mpr hl] at hc
      simp at hc
    obtain ⟨k, hk⟩ : ∃ k, t.source_code.length = k + 1 := ⟨t.source_code.length - 1, by omega⟩
    have hsecond : tokenize t = (t, some e) := by
      unfold tokenize
      rw [lexer_eta_start t hstart, hk, tokenize_loop_succ]
      simp only [hc, hst]
    rw [hsecond]
    exact ⟨rfl, rfl⟩

theorem chain_le_append_singleton {l : List Nat} {b : Nat}
    (h : List.Chain' (· ≤ ·) l) (hb : ∀ x ∈ l, x ≤ b) :
    List.Chain' (· ≤ ·) (l ++ [b]) := by
  induction l with
  | nil => simp
  | cons a l ih =>
    rw [List.cons_append, List.chain'_cons'] at *
    refine ⟨?_, ih h.2 fun x hx => hb x (List.mem_cons_of_mem a hx)⟩
    intro y hy
    cases l with
    | nil =>
      simp at hy
      subst hy
      exact hb a (List.mem_cons_self a [])
    | cons c l2 =>
      simp at hy
      subst hy
      exact h.1 c (by simp)

/-- Invariant of the scan used for line-number monotonicity: the line
counter stays at least one, the lines of the collected tokens are
non-decreasing, and every collected token's line is between one and the
current counter. -/
def LineInv (s : Lexer) : Prop :=
  1 ≤ s.line_number ∧
  List.Chain' (· ≤ ·) (s.tokens.map token_line) ∧
  ∀ t ∈ s.tokens, 1 ≤ token_line t ∧ token_line t ≤ s.line_number

theorem LineInv_steps_to {s s1 : Lexer} (h : LineInv s) (hs : steps_to s s1) :
    LineInv s1 := by
  obtain ⟨h1, h2, h3⟩ := h
  obtain ⟨hsrc, hidx, hline, htok⟩ := hs
  refine ⟨Nat.le_trans h1 hline, ?_, ?_⟩
  · cases htok with
    | inl he => rw [he]; exact h2
    | inr he =>
      obtain ⟨ty, v, he⟩ := he
      rw [he, List.map_append]
      exact chain_le_append_singleton h2 (by
        intro x hx
        obtain ⟨t, ht, hxt⟩ := List.mem_map.mp hx
        rw [← hxt]
        exact (h3 t ht).2)
  · cases htok with
    | inl he =>
      rw [he]
      intro t ht
      exact ⟨(h3 t ht).1, Nat.le_trans (h3 t ht).2 hline⟩
    | inr he =>
      obtain ⟨ty, v, he⟩ := he
      rw [he]
      intro t ht
      rcases List.mem_append.mp ht with hold | hnew
      · exact ⟨(h3 t hold).1, Nat.le_trans (h3 t hold).2 hline⟩
      · simp at hnew
        subst hnew
        exact ⟨h1, hline⟩

theorem LineInv_index_bump (s1 : Lexer) (h : LineInv s1) :
    LineInv { s1 with index := s1.index + 1 } := h

theorem tokenize_loop_LineInv (fuel : Nat) :
    ∀ s : Lexer, LineInv s → LineInv (tokenize_loop fuel s).1 := by
  induction fuel with
  | zero => intro s h; exact h
  | succ n ih =>
    intro s h
    rw [tokenize_loop_succ]
    split
    · exact h
    · rename_i c hg
      split
      · exact h
      · rename_i s1 hst
        exact ih _ (LineInv_index_bump s1 (LineInv_steps_to h (step_steps_to s s1 c hst)))

/-- C8: over any input, the line fields of the emitted token sequence are
non-decreasing from first to last, and every emitted line number is at
least one.  The counter starts at one and is only ever incremented, and
every appended token carries the counter value at its emission. -/
theorem token_lines_monotone (src : String) :
    List.Chain' (· ≤ ·) (((tokenize_source src).1.tokens).map token_line) ∧
    ∀ t ∈ (tokenize_source src).1.tokens, 1 ≤ token_line t := by
  have h0 : LineInv { Lexer.init src with state := DfaState.START } :=
    ⟨Nat.le_refl 1, List.chain'_nil, by intro t ht; cases ht⟩
  have h := tokenize_loop_LineInv (Lexer.init src).source_code.length _ h0
  exact ⟨h.2.1, fun t ht => (h.2.2 t ht).1⟩

/-- Witness for C8 on the concrete source "x\ny ": the mapped line list
of the result is non-decreasing and the token for y, which the scan
emits, carries a line number of at least one. -/
theorem token_lines_monotone_witness :
    List.Chain' (· ≤ ·) (((tokenize_source "x\ny ").1.tokens).map token_line) ∧
    1 ≤ token_line ("IDENTIFIER", "y", 2) :=
  ⟨(token_lines_monotone "x\ny ").1,
    (token_lines_monotone "x\ny ").2 ("IDENTIFIER", "y", 2) (by decide)⟩

/-- C5: the scan fails with UnexpectedCharacter exactly when the Start
state examines a character that is not an ASCII digit, an ASCII letter or
underscore, one of the seven operator characters, space, tab, newline, or
one of the four bracket characters; the error carries that character and
the current line number; no other state can fail; and when a dispatch
fails the loop stops at once, returning the record as it stood, so the
tokens collected before the failure are preserved unchanged. -/
theorem unexpected_character_exactly :
    (∀ (s : Lexer) (c : Char),
      (∃ e, handle_start_state s c = Except.error e) ↔
        ¬(c.isDigit = true ∨ c.isAlpha = true ∨ c = '_' ∨
          c = '+' ∨ c = '-' ∨ c = '*' ∨ c = '/' ∨ c = '<' ∨ c = '>' ∨ c = '=' ∨
          c = ' ' ∨ c = '\t' ∨ c = '\n' ∨
          c = '\x7b' ∨ c = '\x7d' ∨ c = '(' ∨ c = ')')) ∧
    (∀ (s : Lexer) (c : Char) (e : Char × Nat),
      handle_start_state s c = Except.error e → e = (c, s.line_number)) ∧
    (∀ (s : Lexer) (c : Char) (e : Char × Nat),
      step s c = Except.error e → s.state = DfaState.START) ∧
    (∀ (fuel : Nat) (s : Lexer) (c : Char) (e : Char × Nat),
      s.source_code[s.index]? = some c → step s c = Except.error e →
      tokenize_loop (fuel + 1) s = (s, some e)) := by
  refine ⟨?_, ?_, ?_, ?_⟩
  · intro s c
    unfold handle_start_state
    split
    · rename_i h1
      refine iff_of_false (by simp) (not_not_intro ?_)
      exact Or.inl h1
    · split
      · rename_i h1 h2
        refine iff_of_false (by simp) (not_not_intro ?_)
        rcases h2 with h | h
        · exact Or.inr (Or.inl h)
        · exact Or.inr (Or.inr (Or.inl h))
      · split
        · rename_i h1 h2 h3
          refine iff_of_false (by simp) (not_not_intro ?_)
          simp [operator_chars] at h3
          rcases h3 with h | h | h | h | h | h | h <;> subst h <;> tauto
        · split
          · rename_i h1 h2 h3 h4
            refine iff_of_false (by simp) (not_not_intro ?_)
            rcases h4 with h | h <;> subst h <;> tauto
          · split
            · rename_i h1 h2 h3 h4 h5
              refine iff_of_false (by simp) (not_not_intro ?_)
              subst h5
              tauto
            · split
              · rename_i h1 h2 h3 h4 h5 h6
                refine iff_of_false (by simp) (not_not_intro ?_)
                simp [single_chars] at h6
                rcases h6 with h | h | h | h | h <;> subst h <;> tauto
              · rename_i h1 h2 h3 h4 h5 h6
                refine iff_of_true ⟨(c, s.line_number), rfl⟩ ?_
                intro hD
                rcases hD with h | h | h | h | h | h | h | h | h | h | h | h | h | h | h | h | h
                · exact h1 h
                · exact h2 (Or.inl h)
                · exact h2 (Or.inr h)
                · exact h3 (by rw [h]; decide)
                · exact h3 (by rw [h]; decide)
                · exact h3 (by rw [h]; decide)
                · exact h3 (by rw [h]; decide)
                · exact h3 (by rw [h]; decide)
                · exact h3 (by rw [h]; decide)
                · exact h3 (by rw [h]; decide)
                · exact h4 (Or.inl h)
                · exact h4 (Or.inr h)
                · exact h5 h
                · exact h6 (by rw [h]; decide)
                · exact h6 (by rw [h]; decide)
                · exact h6 (by rw [h]; decide)
                · exact h6 (by rw [h]; decide)
  · intro s c e h
    unfold handle_start_state at h
    split at h
    · exact Except.noConfusion h
    · split at h
      · exact Except.noConfusion h
      · split at h
        · exact Except.noConfusion h
        · split at h
          · exact Except.noConfusion h
          · split at h
            · exact Except.noConfusion h
            · split at h
              · exact Except.noConfusion h
              · injection h with h1
                exact h1.symm
  · exact fun s c e h => step_error_start s c e h
  · intro fuel s c e hg hst
    rw [tokenize_loop_succ]
    simp only [hg, hst]

/-- Witness for C5 at the concrete source consisting of the single
character dollar: the dispatch fails, the payload is the dollar sign with
line one, the failing state is Start, and the loop returns the record
unchanged together with the error. -/
theorem unexpected_character_exactly_witness :
    tokenize_loop (0 + 1) (Lexer.init "$") = (Lexer.init "$", some ('$', 1)) ∧
    (('$', 1) : Char × Nat) = ('$', (Lexer.init "$").line_number) ∧
    (Lexer.init "$").state = DfaState.START :=
  ⟨unexpected_character_exactly.2.2.2 0 (Lexer.init "$") '$' ('$', 1) rfl rfl,
    unexpected_character_exactly.2.1 (Lexer.init "$") '$' ('$', 1) rfl,
    unexpected_character_exactly.2.2.1 (Lexer.init "$") '$' ('$', 1) rfl⟩

/-- C4 amended: in the operator state any buffered character absorbs an
immediately following equals sign into a single two-character OPERATOR
token, advancing the index past it (so plus, minus and star do form
compound operators); an equals sign immediately followed by an equals
sign yields exactly one OPERATOR token with the two-character lexeme and
never an ASSIGN followed by an OPERATOR; and a buffered bare equals sign
followed by any other character yields exactly one ASSIGN token. -/
theorem operator_state_resolution :
    (∀ s : Lexer,
      handle_in_operator_state s '=' =
        { s with tokens := s.tokens ++ [("OPERATOR", s.current_token.push '=', s.line_number)],
                 index := s.index + 1,
                 state := DfaState.START, current_token := "" }) ∧
    (∀ (s : Lexer) (c : Char), s.current_token = "=" → c ≠ '=' → c ≠ '\n' →
      handle_in_operator_state s c =
        { s with tokens := s.tokens ++ [("ASSIGN", "=", s.line_number)],
                 state := DfaState.START, current_token := "" }) ∧
    (∀ s : Lexer, s.current_token = "=" →
      handle_in_operator_state s '\n' =
        { s with tokens := s.tokens ++ [("ASSIGN", "=", s.line_number)],
                 state := DfaState.START, current_token := "",
                 line_number := s.line_number + 1 }) ∧
    (tokenize_source "==").1.tokens = [("OPERATOR", "==", 1)] ∧
    (tokenize_source "= ").1.tokens = [("ASSIGN", "=", 1)] := by
  refine ⟨?_, ?_, ?_, rfl, rfl⟩
  · intro s
    have h1 : ¬(s.current_token = "/" ∧ ('=' : Char) = '/') :=
      fun h => absurd h.2 (by decide)
    have h2 : ¬(s.current_token = "=" ∧ ('=' : Char) ≠ '=') :=
      fun h => absurd rfl h.2
    have h4 : ¬(('=' : Char) = '\n') := by decide
    simp only [handle_in_operator_state, if_neg h1, if_neg h2, if_pos rfl, if_neg h4]
    rfl
  · intro s c h hc hcn
    have h1 : ¬(s.current_token = "/" ∧ c = '/') := by
      rw [h]
      rintro ⟨hh, _⟩
      exact absurd hh (by decide)
    simp only [handle_in_operator_state, if_neg h1, if_pos (And.intro h hc), if_neg hcn]
    simp [append_token_then_transists_start, h]
  · intro s h
    have h1 : ¬(s.current_token = "/" ∧ ('\n' : Char) = '/') := by
      rw [h]
      rintro ⟨hh, _⟩
      exact absurd hh (by decide)
    have h2 : s.current_token = "=" ∧ ('\n' : Char) ≠ '=' := ⟨h, by decide⟩
    simp only [handle_in_operator_state, if_neg h1, if_pos h2, if_pos rfl]
    simp [append_token_then_transists_start, h]

/-- Witness for C4 at a concrete record: a buffered equals sign followed
by a space resolves to exactly one ASSIGN token. -/
theorem operator_state_resolution_witness :
    handle_in_operator_state (Lexer.mk [] [] "=" 1 0 DfaState.IN_OPERATOR) ' ' =
      { Lexer.mk [] [] "=" 1 0 DfaState.IN_OPERATOR with
          tokens := ([] : List Token) ++ [("ASSIGN", "=", 1)],
          state := DfaState.START, current_token := "" } :=
  operator_state_resolution.2.1 (Lexer.mk [] [] "=" 1 0 DfaState.IN_OPERATOR) ' '
    rfl (by decide) (by decide)

/-- C6 amended: the comment handler emits no token, returns to Start with
an empty buffer, and moves the index to the next newline position (or the
end of the input), the characters before which are all non-newlines; the
line counter is incremented exactly once when the character right after
the two slashes is not a newline — including a comment that reaches the
end of the input without a newline, which also increments it once — and
twice when the newline immediately follows the two slashes. -/
theorem comment_state_behavior :
    (∀ (s : Lexer) (c : Char),
      handle_in_comment_state s c =
        { s with state := DfaState.START, current_token := "",
                 index := s.index + skip_len (s.source_code.drop s.index),
                 line_number := s.line_number + (if c = '\n' then 2 else 1) }) ∧
    (∀ l : List Char,
      skip_len l ≤ l.length ∧
      (∀ k, k < skip_len l → l[k]? ≠ some '\n') ∧
      (skip_len l < l.length → l[skip_len l]? = some '\n')) := by
  constructor
  · intro s c
    by_cases hc : c = '\n'
    · subst hc
      simp only [handle_in_comment_state, if_pos rfl]
      rfl
    · simp only [handle_in_comment_state, if_neg hc]
  · intro l
    induction l with
    | nil =>
      refine ⟨Nat.le_refl 0, ?_, ?_⟩
      · exact fun k hk => absurd hk (Nat.not_lt_zero k)
      · exact fun h => absurd h (Nat.lt_irrefl 0)
    | cons a l ih =>
      by_cases ha : a = '\n'
      · subst ha
        refine ⟨?_, ?_, ?_⟩
        · simp [skip_len]
        · intro k hk
          simp [skip_len] at hk
        · intro h
          simp [skip_len]
      · refine ⟨?_, ?_, ?_⟩
        · simp only [skip_len, if_neg ha, List.length_cons]
          exact Nat.succ_le_succ ih.1
        · intro k hk
          simp only [skip_len, if_neg ha] at hk
          cases k with
          | zero =>
            simp only [List.getElem?_cons_zero]
            intro he
            injection he with he2
            exact ha he2
          | succ k2 =>
            rw [List.getElem?_cons_succ]
            exact ih.2.1 k2 (Nat.lt_of_succ_lt_succ hk)
        · intro h
          simp only [skip_len, if_neg ha] at h ⊢
          rw [List.getElem?_cons_succ]
          exact ih.2.2 (Nat.lt_of_succ_lt_succ h)

/-- Witness for C6: on the list holding a letter then a newline, the skip
length is within the list, the character before the newline is not a
newline, and the skip stops exactly at the newline; and the handler
applied to a concrete record after an empty comment bumps the counter by
two. -/
theorem comment_state_behavior_witness :
    skip_len ['a', '\n'] ≤ (['a', '\n'] : List Char).length ∧
    (['a', '\n'] : List Char)[0]? ≠ some '\n' ∧
    (['a', '\n'] : List Char)[skip_len ['a', '\n']]? = some '\n' ∧
    handle_in_comment_state (Lexer.mk ['\n'] [] "" 1 0 DfaState.IN_COMMENT) '\n' =
      { Lexer.mk ['\n'] [] "" 1 0 DfaState.IN_COMMENT with
          state := DfaState.START, current_token := "",
          index := 0 + skip_len ((['\n'] : List Char).drop 0),
          line_number := 1 + (if ('\n' : Char) = '\n' then 2 else 1) } :=
  ⟨(comment_state_behavior.2 ['a', '\n']).1,
    (comment_state_behavior.2 ['a', '\n']).2.1 0 (by decide),
    (comment_state_behavior.2 ['a', '\n']).2.2 (by decide),
    comment_state_behavior.1 (Lexer.mk ['\n'] [] "" 1 0 DfaState.IN_COMMENT) '\n'⟩
